import Mathlib

/-!
Voice command session controller (`src/App.js`)

A shallow embedding of the `App` component: its five `useState` cells, its two
`useRef` cells, and the handlers `startRecording`, `stopRecording`,
`sendToBackend`, `confirmCommand` and `handleTranscriptChange`, together with
the two callbacks installed on the `MediaRecorder` (`ondataavailable`,
`onstop`).

Everything the handlers obtain from the browser or the network is an explicit
argument: the result of `getUserMedia`, the data of a `dataavailable` event,
the identifier minted by `URL.createObjectURL`, and the outcome of each
`axios.post`.  The requests handed to `axios.post` are appended to a log kept
next to the component state, so that "issues a request" is a statement about
that log.

Each handler is embedded as one function from its outcome and the state before
to the state after.  `startRecording`, `sendToBackend` and `confirmCommand`
write the component state only in the synchronous block that follows their
single `await` (or, for a blank transcript, before returning), so running one
of them with its outcome is one state update.  `onstop` writes `mediaBlob` and
`audioURL`, then awaits `sendToBackend`; it is embedded with that upload's
outcome as one update.  Strings are sequences of Unicode characters; every
character that `trim` removes is a single UTF-16 code unit.

The component can build more than one `MediaRecorder` (a second
`startRecording` replaces the referenced one, which lives on), so the state
keeps every recorder built, and `mediaRecorderRef` names one of them.  A
recorder becomes inactive by a call of `stop()` or by itself (the browser stops
it on a recording error or when the tracks of its stream end); either way a
`stop` event is queued on it, and the callback `onstop` runs only when that
event fires.  The list `liveStreams` holds the streams the component obtained
and has not released by stopping their tracks.
-/

namespace JS

/-- The code points removed by `String.prototype.trim`: ECMAScript `WhiteSpace`
(tab, vertical tab, form feed, zero width no-break space and every code point of
category `Zs`) and `LineTerminator` (line feed, carriage return, line and
paragraph separator). -/
def isWhiteSpace (c : Char) : Bool :=
  let n := c.toNat
  n == 0x09 || n == 0x0A || n == 0x0B || n == 0x0C || n == 0x0D || n == 0x20 ||
  n == 0xA0 || n == 0x1680 || (0x2000 ≤ n && n ≤ 0x200A) || n == 0x2028 ||
  n == 0x2029 || n == 0x202F || n == 0x205F || n == 0x3000 || n == 0xFEFF

/-- Removal of leading, then trailing, white space from a list of characters. -/
def trimChars (l : List Char) : List Char :=
  (l.dropWhile isWhiteSpace).rdropWhile isWhiteSpace

/-- The method `String.prototype.trim`, as used in `transcript.trim()`. -/
def trim (s : String) : String := String.mk (trimChars s.data)

/-- The expression `x || d` for an optional string field `x` of a response
object: an absent field (`undefined`) and the empty string are both falsy. -/
def orElse (x : Option String) (d : String) : String :=
  match x with
  | some v => if v = "" then d else v
  | none => d

end JS

namespace App

/-- A `Blob`: its bytes and its declared media type. -/
structure Blob where
  bytes : List Nat
  type : String
  deriving DecidableEq, Repr

/-- The attribute `size` of a `Blob`. -/
def Blob.size (b : Blob) : Nat := b.bytes.length

/-- The constructor `new Blob(parts, { type })`: the parts in order. -/
def Blob.new (parts : List Blob) (type : String) : Blob :=
  { bytes := (parts.map Blob.bytes).flatten, type := type }

/-- The attribute `state` of a `MediaRecorder`. -/
inductive RecordingState where
  | inactive
  | recording
  | paused
  deriving DecidableEq, Repr

/-- A `MediaRecorder`: the stream it was built on (named by a number), its
`state`, and whether a `stop` event is queued on it and has not fired yet.  Its
two callbacks are the same for every recorder the component builds, and are the
functions `ondataavailable` and `onstop` below. -/
structure MediaRecorder where
  stream : Nat
  state : RecordingState
  stopQueued : Bool
  deriving DecidableEq, Repr

/-- The method `MediaRecorder.stop()`, which is also what the browser applies
to a recorder it stops by itself: nothing on an inactive recorder; otherwise
the recorder becomes inactive and a `stop` event is queued on it.  A call of
`stop()` leaves the tracks of the recorder's stream as they are. -/
def MediaRecorder.stop (r : MediaRecorder) : MediaRecorder :=
  if r.state = .inactive then r else { r with state := .inactive, stopQueued := true }

/-- The method `stop()` applied to the recorder at position `i`. -/
def stopAt (i : Nat) (rs : List MediaRecorder) : List MediaRecorder :=
  match rs[i]? with
  | some r => rs.set i r.stop
  | none => rs

/-- A request handed to `axios.post`. -/
inductive Request where
  /-- The call `POST http://localhost:3001/process-command`, multipart form
  with one field `audio` carrying the blob under the given file name. -/
  | processCommand (audio : Blob) (filename : String)
  /-- The call `POST http://localhost:3001/save-command` with the JSON body
  `{ transcript }`. -/
  | saveCommand (transcript : String)
  deriving DecidableEq, Repr

/-- The address a request is posted to. -/
def Request.url : Request → String
  | .processCommand _ _ => "http://localhost:3001/process-command"
  | .saveCommand _ => "http://localhost:3001/save-command"

/-- The body `response.data` of a successful response: a JSON object whose
fields `transcript` and `message`, when there, are strings. -/
structure ResponseData where
  transcript : Option String
  message : Option String
  deriving DecidableEq, Repr

/-- How an awaited `axios.post` ends: it resolves with a response, or it throws
(transport error or a status outside 2xx). -/
inductive HttpOutcome where
  | ok (data : ResponseData)
  | error
  deriving DecidableEq, Repr

/-- How the awaited `getUserMedia({ audio: true })` ends: it resolves with a
stream, or it throws (permission denied, no device). -/
inductive DeviceOutcome where
  | granted (stream : Nat)
  | denied
  deriving DecidableEq, Repr

/-- The component state: the five `useState` cells, the two `useRef` cells, and
beside them the log of requests issued, the device streams obtained from
`getUserMedia` that the component has not released, and every recorder built so
far, oldest first.  The cell `mediaRecorderRef` holds the position of the
referenced recorder in `recorders`, or `none` for `null`. -/
structure State where
  isRecording : Bool
  mediaBlob : Option Blob
  audioURL : String
  transcript : String
  confirmationMessage : String
  mediaRecorderRef : Option Nat
  audioChunks : List Blob
  requests : List Request
  liveStreams : List Nat
  recorders : List MediaRecorder
  deriving DecidableEq, Repr

/-- The state of a freshly mounted component. -/
def init : State :=
  { isRecording := false, mediaBlob := none, audioURL := "", transcript := "",
    confirmationMessage := "", mediaRecorderRef := none, audioChunks := [],
    requests := [], liveStreams := [], recorders := [] }

/-- The object `mediaRecorderRef.current`. -/
def current (s : State) : Option MediaRecorder :=
  match s.mediaRecorderRef with
  | some i => s.recorders[i]?
  | none => none

/-- The function `URL.createObjectURL`: a URL of scheme `blob:` around the
identifier minted by the browser. -/
def createObjectURL (uuid : String) : String := "blob:" ++ uuid

/-- The handler `sendToBackend(blob)` run with the outcome of its request. -/
def sendToBackend (blob : Option Blob) (o : HttpOutcome) (s : State) : State :=
  match blob with
  | none => s
  | some b =>
    let s1 := { s with requests := s.requests ++ [Request.processCommand b "audio.webm"] }
    match o with
    | .ok data =>
      { s1 with transcript := JS.orElse data.transcript "",
                confirmationMessage := "Transcription received. You can edit it." }
    | .error => { s1 with confirmationMessage := "Error processing the audio." }

/-- The handler `startRecording` run with the outcome of `getUserMedia`. -/
def startRecording (o : DeviceOutcome) (s : State) : State :=
  match o with
  | .granted stream =>
    { s with liveStreams := s.liveStreams ++ [stream],
             recorders := s.recorders
               ++ [{ stream := stream, state := .recording, stopQueued := false }],
             mediaRecorderRef := some s.recorders.length,
             audioChunks := [],
             isRecording := true,
             confirmationMessage := "Recording..." }
  | .denied => { s with confirmationMessage := "Error accessing microphone." }

/-- The callback `ondataavailable` installed by `startRecording`. -/
def ondataavailable (data : Blob) (s : State) : State :=
  if data.size > 0 then { s with audioChunks := s.audioChunks ++ [data] } else s

/-- The callback `onstop` installed by `startRecording`, run with the identifier
minted for the object URL and the outcome of the upload it awaits. -/
def onstop (uuid : String) (o : HttpOutcome) (s : State) : State :=
  let blob := Blob.new s.audioChunks "audio/webm"
  let s1 := { s with mediaBlob := some blob, audioURL := createObjectURL uuid }
  sendToBackend (some blob) o s1

/-- The guard of `stopRecording`: a recorder is referenced and its `state` is
`'recording'`. -/
def stopGuard (s : State) : Bool :=
  match current s with
  | some r => r.state == .recording
  | none => false

/-- The handler `stopRecording`: under its guard, `stop()` on the referenced
recorder, then the two setters. -/
def stopRecording (s : State) : State :=
  if stopGuard s then
    { s with recorders := (match s.mediaRecorderRef with
                           | some i => stopAt i s.recorders
                           | none => s.recorders),
             isRecording := false,
             confirmationMessage := "Processing audio..." }
  else s

/-- The handler `confirmCommand` run with the outcome of its request. -/
def confirmCommand (o : HttpOutcome) (s : State) : State :=
  if JS.trim s.transcript = "" then
    { s with confirmationMessage := "Please enter or receive a transcript to confirm." }
  else
    let s1 := { s with requests := s.requests ++ [Request.saveCommand (JS.trim s.transcript)] }
    match o with
    | .ok data =>
      { s1 with confirmationMessage := JS.orElse data.message "Command confirmed successfully!",
                transcript := "",
                mediaBlob := none,
                audioURL := "" }
    | .error => { s1 with confirmationMessage := "Error confirming the command." }

/-- The handler `handleTranscriptChange` for an event whose `target.value` is
`value`. -/
def handleTranscriptChange (value : String) (s : State) : State :=
  { s with transcript := value, confirmationMessage := "" }

/-- The `stop` event of the recorder at position `i` fires: when one is queued
on that recorder it is consumed and the callback `onstop` runs; when none is
queued nothing happens. -/
def fireStop (i : Nat) (uuid : String) (o : HttpOutcome) (s : State) : State :=
  match s.recorders[i]? with
  | some r =>
    if r.stopQueued then
      onstop uuid o { s with recorders := s.recorders.set i { r with stopQueued := false } }
    else s
  | none => s

/-- What can happen to the component: a handler runs (with the outcome of what
it awaits), a recorder delivers data, a recorder becomes inactive by itself, or
the `stop` event queued on a recorder fires. -/
inductive Event where
  | startRecording (o : DeviceOutcome)
  | dataavailable (data : Blob)
  | stopRecording
  | inactivate (i : Nat)
  | stop (i : Nat) (uuid : String) (o : HttpOutcome)
  | handleTranscriptChange (value : String)
  | confirmCommand (o : HttpOutcome)
  deriving DecidableEq, Repr

/-- The effect of one event on the component. -/
def step (s : State) : Event → State
  | .startRecording o => startRecording o s
  | .dataavailable data => ondataavailable data s
  | .stopRecording => stopRecording s
  | .inactivate i => { s with recorders := stopAt i s.recorders }
  | .stop i uuid o => fireStop i uuid o s
  | .handleTranscriptChange value => handleTranscriptChange value s
  | .confirmCommand o => confirmCommand o s

/-- The effect of a sequence of events, oldest first. -/
def run (es : List Event) (s : State) : State := es.foldl step s

/-- Whether a `stop` event is queued on the recorder at position `i`. -/
def stopQueuedAt (s : State) (i : Nat) : Bool :=
  match s.recorders[i]? with
  | some r => r.stopQueued
  | none => false

/-- The recorder on which a handler run from `s` to `t` queued a `stop` event:
the referenced one, when an event is queued on it in `t` and none was in `s`. -/
def queuedBy (s t : State) : Option Nat :=
  match t.mediaRecorderRef with
  | some i => if stopQueuedAt t i && !stopQueuedAt s i then some i else none
  | none => none

/-- The events that follow a `stop()` on the recorder at position `i`: the
recorder delivers what it still holds as `dataavailable` events, then its `stop`
event fires. -/
def finalization (i : Nat) (flush : List Blob) (uuid : String) (o : HttpOutcome) :
    List Event :=
  flush.map Event.dataavailable ++ [Event.stop i uuid o]

/-- The operation `endCapture` with its finalization: `stopRecording`, then the
events of the recorder that this `stopRecording` stopped, if it stopped one. -/
def endCapture (flush : List Blob) (uuid : String) (o : HttpOutcome) (s : State) : State :=
  match queuedBy s (stopRecording s) with
  | some i => run (finalization i flush uuid o) (stopRecording s)
  | none => stopRecording s

/-- One capture from start to finish with device access granted: the stream
obtained, the data delivered while recording, the data delivered on stop, the
identifier minted for the object URL and the outcome of the upload. -/
structure Capture where
  stream : Nat
  chunks : List Blob
  flush : List Blob
  uuid : String
  upload : HttpOutcome
  deriving DecidableEq, Repr

/-- The matched pair `beginCapture` ... `endCapture` of one capture. -/
def Capture.run (c : Capture) (s : State) : State :=
  endCapture c.flush c.uuid c.upload
    (App.run (c.chunks.map Event.dataavailable) (startRecording (.granted c.stream) s))

/-- A well-matched sequence of captures, oldest first. -/
def runCaptures (cs : List Capture) (s : State) : State :=
  cs.foldl (fun st c => c.run st) s

/-- The operations of the session controller, each with its outcome. -/
inductive Op where
  | beginCapture (o : DeviceOutcome)
  | endCapture (flush : List Blob) (uuid : String) (o : HttpOutcome)
  | submitForTranscription (audio : Option Blob) (o : HttpOutcome)
  | editTranscript (newText : String)
  | confirmCommand (o : HttpOutcome)
  deriving DecidableEq, Repr

/-- The effect of an operation on the component. -/
def Op.run (s : State) : Op → State
  | .beginCapture o => startRecording o s
  | .endCapture flush uuid o => App.endCapture flush uuid o s
  | .submitForTranscription audio o => sendToBackend audio o s
  | .editTranscript newText => handleTranscriptChange newText s
  | .confirmCommand o => App.confirmCommand o s

/-- A session after a transcription: a padded transcript, a captured audio and
its playback reference. -/
def exampleState : State :=
  { init with
    transcript := "  turn on lights  ",
    mediaBlob := some { bytes := [26, 69, 223, 163], type := "audio/webm" },
    audioURL := "blob:3f0c",
    confirmationMessage := "Transcription received. You can edit it." }

/-- A session whose transcript is white space only. -/
def blankState : State :=
  { exampleState with transcript := " \t\n ", confirmationMessage := "Recording..." }

/-- A confirmation response that carries a message. -/
def savedResponse : ResponseData := { transcript := none, message := some "Saved" }

/-- A confirmation response whose message is the empty string. -/
def emptyMessageResponse : ResponseData := { transcript := none, message := some "" }

/-- The response `{}`. -/
def emptyResponse : ResponseData := { transcript := none, message := none }

/-- A capture that delivers data while recording and on stop. -/
def exampleCapture : Capture :=
  { stream := 5,
    chunks := [{ bytes := [26, 69], type := "audio/webm" }, { bytes := [], type := "audio/webm" }],
    flush := [{ bytes := [223, 163], type := "audio/webm" }],
    uuid := "9b2e",
    upload := .ok { transcript := some "open the door", message := none } }

/-- A capture stopped at once: no data at all. -/
def emptyCapture : Capture :=
  { stream := 6, chunks := [], flush := [], uuid := "77aa", upload := .ok emptyResponse }

/-- A start, one chunk, a stop and its finalization. -/
def exampleEvents : List Event :=
  [.startRecording (.granted 5), .dataavailable { bytes := [26, 69], type := "audio/webm" },
   .stopRecording, .stop 0 "9b2e" (.ok emptyResponse)]

/-- A start, after which the recorder becomes inactive by itself and its `stop`
event fires. -/
def endedEvents : List Event :=
  [.startRecording (.granted 5), .inactivate 0, .stop 0 "9b2e" (.ok emptyResponse)]

end App

/-! ## White space and `trim` -/

namespace JS

theorem rdropWhile_append_rtakeWhile (p : Char → Bool) (l : List Char) :
    l.rdropWhile p ++ l.rtakeWhile p = l := by
  have h := congrArg List.reverse (List.takeWhile_append_dropWhile p l.reverse)
  rw [List.reverse_append, List.reverse_reverse] at h
  exact h

theorem trimChars_getLast (l : List Char) (c : Char)
    (h : (trimChars l).getLast? = some c) : isWhiteSpace c = false := by
  have hne : trimChars l ≠ [] := by
    intro h0
    rw [h0] at h
    simp at h
  have hl := List.rdropWhile_last_not isWhiteSpace (l.dropWhile isWhiteSpace) hne
  rw [List.getLast?_eq_getLast _ hne] at h
  have hc : (trimChars l).getLast hne = c := Option.some.inj h
  have hc2 : (List.rdropWhile isWhiteSpace (l.dropWhile isWhiteSpace)).getLast hne = c := hc
  rw [hc2] at hl
  simpa using hl

theorem trimChars_head (l : List Char) (c : Char)
    (h : (trimChars l).head? = some c) : isWhiteSpace c = false := by
  obtain ⟨t, ht⟩ : trimChars l <+: l.dropWhile isWhiteSpace := List.rdropWhile_prefix isWhiteSpace _
  cases hx : trimChars l with
  | nil => rw [hx] at h; simp at h
  | cons a as =>
    rw [hx] at h ht
    have hac : a = c := by simpa using h
    have hd : (l.dropWhile isWhiteSpace).head? = some a := by rw [← ht]; rfl
    have hnot := List.head?_dropWhile_not isWhiteSpace l
    rw [hd] at hnot
    rw [← hac]
    simpa using hnot

theorem trimChars_idem (l : List Char) : trimChars (trimChars l) = trimChars l := by
  have h1 : (trimChars l).dropWhile isWhiteSpace = trimChars l := by
    cases hx : trimChars l with
    | nil => rfl
    | cons a as =>
      have ha := trimChars_head l a (by rw [hx]; rfl)
      simp [List.dropWhile, ha]
  show ((trimChars l).dropWhile isWhiteSpace).rdropWhile isWhiteSpace = trimChars l
  rw [h1]
  exact List.rdropWhile_idempotent isWhiteSpace _

theorem trimChars_decomp (l : List Char) :
    l = l.takeWhile isWhiteSpace ++ trimChars l
          ++ (l.dropWhile isWhiteSpace).rtakeWhile isWhiteSpace := by
  rw [List.append_assoc]
  show l = _ ++ ((l.dropWhile isWhiteSpace).rdropWhile isWhiteSpace ++ _)
  rw [rdropWhile_append_rtakeWhile, List.takeWhile_append_dropWhile]

theorem trimChars_eq_nil_iff (l : List Char) :
    trimChars l = [] ↔ ∀ c ∈ l, isWhiteSpace c = true := by
  unfold trimChars
  rw [List.rdropWhile_eq_nil_iff]
  constructor
  · intro h
    rw [← List.dropWhile_eq_nil_iff]
    by_contra hne
    cases hx : l.dropWhile isWhiteSpace with
    | nil => exact hne hx
    | cons a as =>
      have hnot := List.head?_dropWhile_not isWhiteSpace l
      rw [hx] at hnot h
      have := h a (List.mem_cons_self _ _)
      simp [this] at hnot
  · intro h c hc
    exact h c ((List.dropWhile_sublist _).subset hc)

theorem trim_eq_empty_iff (s : String) : trim s = "" ↔ trimChars s.data = [] := by
  unfold trim
  constructor
  · intro h
    exact congrArg String.data h
  · intro h
    rw [h]

theorem trim_idem (s : String) : trim (trim s) = trim s := by
  unfold trim
  rw [trimChars_idem]

theorem createObjectURL_ne (u : String) : App.createObjectURL u ≠ "" := by
  unfold App.createObjectURL
  intro h
  have h2 := congrArg String.length h
  simp at h2
  exact absurd h2.1 (by decide)
end JS

namespace App

/-! ## `confirmCommand` -/

theorem confirmCommand_of_blank (s : State) (o : HttpOutcome) (h : JS.trim s.transcript = "") :
    confirmCommand o s
      = { s with confirmationMessage := "Please enter or receive a transcript to confirm." } := by
  unfold confirmCommand
  rw [if_pos h]

theorem confirmCommand_ok (s : State) (data : ResponseData) (h : JS.trim s.transcript ≠ "") :
    confirmCommand (.ok data) s
      = { s with requests := s.requests ++ [Request.saveCommand (JS.trim s.transcript)],
                 confirmationMessage := JS.orElse data.message "Command confirmed successfully!",
                 transcript := "",
                 mediaBlob := none,
                 audioURL := "" } := by
  unfold confirmCommand
  rw [if_neg h]

theorem confirmCommand_error (s : State) (h : JS.trim s.transcript ≠ "") :
    confirmCommand .error s
      = { s with requests := s.requests ++ [Request.saveCommand (JS.trim s.transcript)],
                 confirmationMessage := "Error confirming the command." } := by
  unfold confirmCommand
  rw [if_neg h]

/-- C1 (as stated, refuted): a successful confirmation whose response carries the
message `""` does not show that message; the status is the default text. -/
theorem confirmCommand_empty_message_counterexample :
    JS.trim exampleState.transcript ≠ "" ∧
    emptyMessageResponse.message = some "" ∧
    (confirmCommand (.ok emptyMessageResponse) exampleState).confirmationMessage
      = "Command confirmed successfully!" ∧
    (confirmCommand (.ok emptyMessageResponse) exampleState).confirmationMessage ≠ "" := by
  decide

/-- C1 (amended): with a transcript whose trimmed form is non-empty, and whatever
the prior captured audio, playback reference and status, a successful
`confirmCommand` leaves `transcript = ""`, `mediaBlob = null`, `audioURL = ""`,
keeps `isRecording`, and sets the status to the server's message when the
response has a non-empty one, and to `'Command confirmed successfully!'` when
the response has none or an empty one. -/
theorem confirmCommand_success (s : State) (data : ResponseData)
    (h : JS.trim s.transcript ≠ "") :
    (confirmCommand (.ok data) s).transcript = "" ∧
    (confirmCommand (.ok data) s).mediaBlob = none ∧
    (confirmCommand (.ok data) s).audioURL = "" ∧
    (confirmCommand (.ok data) s).isRecording = s.isRecording ∧
    (∀ m, data.message = some m → m ≠ "" →
      (confirmCommand (.ok data) s).confirmationMessage = m) ∧
    (data.message = none ∨ data.message = some "" →
      (confirmCommand (.ok data) s).confirmationMessage
        = "Command confirmed successfully!") := by
  rw [confirmCommand_ok s data h]
  refine ⟨rfl, rfl, rfl, rfl, ?_, ?_⟩
  · intro m hm hne
    simp [JS.orElse, hm, hne]
  · rintro (hm | hm) <;> simp [JS.orElse, hm]

/-- C1, at the example session with a response that carries `"Saved"`. -/
theorem confirmCommand_success_witness :
    JS.trim exampleState.transcript ≠ "" ∧
    (confirmCommand (.ok savedResponse) exampleState).transcript = "" ∧
    (confirmCommand (.ok savedResponse) exampleState).confirmationMessage = "Saved" :=
  ⟨by decide,
   (confirmCommand_success exampleState savedResponse (by decide)).1,
   (confirmCommand_success exampleState savedResponse (by decide)).2.2.2.2.1
     "Saved" rfl (by decide)⟩

/-- C2: with a transcript that is empty or white space only (its trimmed form is
`""`), `confirmCommand` issues no request, sets the status to the validation
message and leaves every other cell as it was. -/
theorem confirmCommand_blank (s : State) (o : HttpOutcome)
    (h : JS.trim s.transcript = "") :
    (∀ c ∈ s.transcript.data, JS.isWhiteSpace c = true) ∧
    (confirmCommand o s).requests = s.requests ∧
    (confirmCommand o s).confirmationMessage
      = "Please enter or receive a transcript to confirm." ∧
    (confirmCommand o s).transcript = s.transcript ∧
    (confirmCommand o s).mediaBlob = s.mediaBlob ∧
    (confirmCommand o s).audioURL = s.audioURL ∧
    (confirmCommand o s).isRecording = s.isRecording ∧
    confirmCommand o s
      = { s with confirmationMessage := "Please enter or receive a transcript to confirm." } := by
  refine ⟨?_, ?_⟩
  · exact (JS.trimChars_eq_nil_iff _).mp ((JS.trim_eq_empty_iff _).mp h)
  · rw [confirmCommand_of_blank s o h]
    exact ⟨rfl, rfl, rfl, rfl, rfl, rfl, rfl⟩

/-- C2, at a session whose transcript is a blank, a tab, a line feed and a
blank. -/
theorem confirmCommand_blank_witness :
    JS.trim blankState.transcript = "" ∧
    (confirmCommand (.ok savedResponse) blankState).requests = blankState.requests ∧
    (confirmCommand (.ok savedResponse) blankState).confirmationMessage
      = "Please enter or receive a transcript to confirm." :=
  ⟨by decide,
   (confirmCommand_blank blankState (.ok savedResponse) (by decide)).2.1,
   (confirmCommand_blank blankState (.ok savedResponse) (by decide)).2.2.1⟩

/-- C4: with a transcript whose trimmed form is non-empty, `confirmCommand`,
whatever the outcome, issues exactly one request, to `/save-command`, whose
`transcript` is the trimmed transcript: the stored text is white space, then
the sent text, then white space, the sent text neither starts nor ends with
white space, and trimming it again changes nothing. -/
theorem confirmCommand_request (s : State) (o : HttpOutcome)
    (h : JS.trim s.transcript ≠ "") :
    (confirmCommand o s).requests
      = s.requests ++ [Request.saveCommand (JS.trim s.transcript)] ∧
    (Request.saveCommand (JS.trim s.transcript)).url = "http://localhost:3001/save-command" ∧
    (∃ pre post : List Char,
      s.transcript.data = pre ++ (JS.trim s.transcript).data ++ post ∧
      (∀ c ∈ pre, JS.isWhiteSpace c = true) ∧ (∀ c ∈ post, JS.isWhiteSpace c = true)) ∧
    (∀ c, (JS.trim s.transcript).data.head? = some c → JS.isWhiteSpace c = false) ∧
    (∀ c, (JS.trim s.transcript).data.getLast? = some c → JS.isWhiteSpace c = false) ∧
    JS.trim (JS.trim s.transcript) = JS.trim s.transcript := by
  refine ⟨?_, rfl, ?_, ?_, ?_, JS.trim_idem _⟩
  · cases o with
    | ok data => rw [confirmCommand_ok s data h]
    | error => rw [confirmCommand_error s h]
  · exact ⟨_, _, JS.trimChars_decomp s.transcript.data,
      fun c hc => List.mem_takeWhile_imp hc, fun c hc => List.mem_rtakeWhile_imp hc⟩
  · exact fun c hc => JS.trimChars_head _ c hc
  · exact fun c hc => JS.trimChars_getLast _ c hc

/-- C4, at the transcript `"  turn on lights  "`: the body carries
`"turn on lights"`. -/
theorem confirmCommand_request_witness :
    JS.trim exampleState.transcript ≠ "" ∧
    exampleState.transcript = "  turn on lights  " ∧
    (confirmCommand (.ok savedResponse) exampleState).requests
      = exampleState.requests ++ [Request.saveCommand "turn on lights"] :=
  ⟨by decide, rfl,
   (confirmCommand_request exampleState (.ok savedResponse) (by decide)).1⟩

end App

namespace App

/-! ## Error transitions, transcription and editing -/

/-- C5: each error transition changes only the status.  For every session,
(i) `startRecording` when `getUserMedia` throws, (ii) `sendToBackend` of an
audio when its request throws, and (iii) `confirmCommand`, when the transcript
is not blank and its request throws, keep `isRecording`, `mediaBlob`,
`audioURL`, `transcript`, the chunk accumulator and the recorder reference, and
set the status to `'Error accessing microphone.'`,
`'Error processing the audio.'` and `'Error confirming the command.'`,
whatever the status was. -/
theorem error_transitions_frame (s : State) (audio : Blob) :
    (startRecording .denied s
        = { s with confirmationMessage := "Error accessing microphone." }) ∧
    ((sendToBackend (some audio) .error s).isRecording = s.isRecording ∧
      (sendToBackend (some audio) .error s).mediaBlob = s.mediaBlob ∧
      (sendToBackend (some audio) .error s).audioURL = s.audioURL ∧
      (sendToBackend (some audio) .error s).transcript = s.transcript ∧
      (sendToBackend (some audio) .error s).audioChunks = s.audioChunks ∧
      (sendToBackend (some audio) .error s).mediaRecorderRef = s.mediaRecorderRef ∧
      (sendToBackend (some audio) .error s).recorders = s.recorders ∧
      (sendToBackend (some audio) .error s).confirmationMessage
        = "Error processing the audio.") ∧
    (JS.trim s.transcript ≠ "" →
      (confirmCommand .error s).isRecording = s.isRecording ∧
      (confirmCommand .error s).mediaBlob = s.mediaBlob ∧
      (confirmCommand .error s).audioURL = s.audioURL ∧
      (confirmCommand .error s).transcript = s.transcript ∧
      (confirmCommand .error s).audioChunks = s.audioChunks ∧
      (confirmCommand .error s).mediaRecorderRef = s.mediaRecorderRef ∧
      (confirmCommand .error s).recorders = s.recorders ∧
      (confirmCommand .error s).confirmationMessage
        = "Error confirming the command.") := by
  refine ⟨rfl, ⟨rfl, rfl, rfl, rfl, rfl, rfl, rfl, rfl⟩, ?_⟩
  intro h
  rw [confirmCommand_error s h]
  exact ⟨rfl, rfl, rfl, rfl, rfl, rfl, rfl, rfl⟩

/-- C5, at the example session, where a failed confirmation keeps the transcript
and the captured audio and overwrites the status, and at the fresh session,
where a denied start and a failed upload leave everything but the status. -/
theorem error_transitions_frame_witness :
    (JS.trim exampleState.transcript ≠ "" ∧
      (confirmCommand .error exampleState).transcript = "  turn on lights  " ∧
      (confirmCommand .error exampleState).mediaBlob = exampleState.mediaBlob ∧
      (confirmCommand .error exampleState).confirmationMessage
        = "Error confirming the command.") ∧
    (JS.trim init.transcript = "" ∧
      startRecording .denied init
        = { init with confirmationMessage := "Error accessing microphone." } ∧
      (sendToBackend (some { bytes := [], type := "audio/webm" }) .error init).transcript
        = init.transcript ∧
      (sendToBackend (some { bytes := [], type := "audio/webm" }) .error
        init).confirmationMessage = "Error processing the audio.") :=
  ⟨⟨by decide,
    ((error_transitions_frame exampleState ⟨[], "audio/webm"⟩).2.2 (by decide)).2.2.2.1,
    ((error_transitions_frame exampleState ⟨[], "audio/webm"⟩).2.2 (by decide)).2.1,
    ((error_transitions_frame exampleState ⟨[], "audio/webm"⟩).2.2
      (by decide)).2.2.2.2.2.2.2⟩,
   ⟨by decide,
    (error_transitions_frame init ⟨[], "audio/webm"⟩).1,
    (error_transitions_frame init ⟨[], "audio/webm"⟩).2.1.2.2.2.1,
    (error_transitions_frame init ⟨[], "audio/webm"⟩).2.1.2.2.2.2.2.2.2⟩⟩

/-- C6: for every session and every audio, a successful `sendToBackend` sets the
transcript to the `transcript` of the response when it has one and to `""` when
it has none (so for the response `{}`), sets the status to
`'Transcription received. You can edit it.'`, and keeps `isRecording`,
`mediaBlob` and `audioURL`. -/
theorem sendToBackend_success (s : State) (audio : Blob) (data : ResponseData) :
    (∀ t, data.transcript = some t →
      (sendToBackend (some audio) (.ok data) s).transcript = t) ∧
    (data.transcript = none → (sendToBackend (some audio) (.ok data) s).transcript = "") ∧
    (sendToBackend (some audio) (.ok emptyResponse) s).transcript = "" ∧
    (sendToBackend (some audio) (.ok data) s).confirmationMessage
      = "Transcription received. You can edit it." ∧
    (sendToBackend (some audio) (.ok data) s).isRecording = s.isRecording ∧
    (sendToBackend (some audio) (.ok data) s).mediaBlob = s.mediaBlob ∧
    (sendToBackend (some audio) (.ok data) s).audioURL = s.audioURL := by
  refine ⟨?_, ?_, rfl, rfl, rfl, rfl, rfl⟩
  · intro t ht
    show JS.orElse data.transcript "" = t
    rw [ht]
    unfold JS.orElse
    by_cases h0 : t = ""
    · simp [h0]
    · simp [h0]
  · intro ht
    show JS.orElse data.transcript "" = ""
    rw [ht]
    rfl

/-- C6, at the example session with a response that carries a transcript. -/
theorem sendToBackend_success_witness :
    (sendToBackend (some ⟨[1, 2], "audio/webm"⟩) (.ok ⟨some "open the door", none⟩)
      exampleState).transcript = "open the door" :=
  (sendToBackend_success exampleState ⟨[1, 2], "audio/webm"⟩ ⟨some "open the door", none⟩).1
    "open the door" rfl

/-- C7: for every session and every string, `handleTranscriptChange` sets the
transcript to that string and the status to `""`, issues no request, and keeps
every other cell. -/
theorem handleTranscriptChange_spec (s : State) (newText : String) :
    (handleTranscriptChange newText s).transcript = newText ∧
    (handleTranscriptChange newText s).confirmationMessage = "" ∧
    (handleTranscriptChange newText s).requests = s.requests ∧
    (handleTranscriptChange newText s).isRecording = s.isRecording ∧
    (handleTranscriptChange newText s).mediaBlob = s.mediaBlob ∧
    (handleTranscriptChange newText s).audioURL = s.audioURL ∧
    handleTranscriptChange newText s
      = { s with transcript := newText, confirmationMessage := "" } :=
  ⟨rfl, rfl, rfl, rfl, rfl, rfl, rfl⟩

end App

namespace App

/-! ## Captures and uploads -/

theorem run_append (es fs : List Event) (s : State) :
    run (es ++ fs) s = run fs (run es s) := by
  simp [run, List.foldl_append]

theorem run_dataavailable (ds : List Blob) (s : State) :
    run (ds.map Event.dataavailable) s
      = { s with audioChunks := s.audioChunks ++ ds.filter (fun d => decide (d.size > 0)) } := by
  induction ds generalizing s with
  | nil => simp [run]
  | cons d ds ih =>
    have hstep : run ((d :: ds).map Event.dataavailable) s
        = run (ds.map Event.dataavailable) (ondataavailable d s) := rfl
    rw [hstep, ih]
    unfold ondataavailable
    by_cases hd : d.size > 0
    · simp [hd, List.filter_cons]
    · simp [hd, List.filter_cons]

theorem flatten_filter_size (ds : List Blob) :
    ((ds.filter (fun d => decide (d.size > 0))).map Blob.bytes).flatten
      = (ds.map Blob.bytes).flatten := by
  induction ds with
  | nil => rfl
  | cons d ds ih =>
    by_cases hd : d.size > 0
    · simp [List.filter_cons, hd, ih]
    · have h0 : d.bytes = [] := by
        have : d.bytes.length = 0 := by
          unfold Blob.size at hd
          omega
        exact List.length_eq_zero.mp this
      simp [List.filter_cons, hd, ih, h0]

theorem set_concat_length (rs : List MediaRecorder) (a b : MediaRecorder) :
    (rs ++ [a]).set rs.length b = rs ++ [b] := by
  rw [List.set_append_right _ _ (Nat.le_refl _), Nat.sub_self]
  rfl

theorem stopAt_concat_recording (rs : List MediaRecorder) (stream : Nat) :
    stopAt rs.length (rs ++ [{ stream := stream, state := .recording, stopQueued := false }])
      = rs ++ [{ stream := stream, state := .inactive, stopQueued := true }] := by
  unfold stopAt
  rw [List.getElem?_concat_length]
  exact set_concat_length rs _ _

theorem stopRecording_of_guard (s : State) (h : stopGuard s = true) :
    stopRecording s
      = { s with recorders := (match s.mediaRecorderRef with
                               | some i => stopAt i s.recorders
                               | none => s.recorders),
                 isRecording := false,
                 confirmationMessage := "Processing audio..." } := by
  unfold stopRecording
  rw [if_pos h]

theorem stopRecording_of_not_guard (s : State) (h : stopGuard s = false) :
    stopRecording s = s := by
  unfold stopRecording
  rw [h]
  rfl

theorem fireStop_of_queued (i : Nat) (uuid : String) (o : HttpOutcome) (s : State)
    (r : MediaRecorder) (hr : s.recorders[i]? = some r) (hq : r.stopQueued = true) :
    fireStop i uuid o s
      = onstop uuid o { s with recorders := s.recorders.set i { r with stopQueued := false } } := by
  unfold fireStop
  rw [hr]
  simp only [hq, if_true]

/-- A capture on a freshly started recorder: what `endCapture` does when the
referenced recorder is the last one built, is recording, and has no `stop` event
queued. -/
theorem endCapture_fresh (flush : List Blob) (uuid : String) (o : HttpOutcome) (t : State)
    (rs : List MediaRecorder) (stream : Nat)
    (href : t.mediaRecorderRef = some rs.length)
    (hrs : t.recorders
      = rs ++ [{ stream := stream, state := .recording, stopQueued := false }]) :
    endCapture flush uuid o t
      = onstop uuid o
          { t with recorders := rs ++ [{ stream := stream, state := .inactive,
                                         stopQueued := false }],
                   isRecording := false,
                   confirmationMessage := "Processing audio...",
                   audioChunks := t.audioChunks
                     ++ flush.filter (fun d => decide (d.size > 0)) } := by
  cases t with
  | mk isRec blob url tr msg ref chunks reqs streams recs =>
  simp only at href hrs
  subst href hrs
  have hget : (rs ++ [(⟨stream, .recording, false⟩ : MediaRecorder)])[rs.length]?
      = some ⟨stream, .recording, false⟩ := List.getElem?_concat_length _ _
  have hg : stopGuard
      { isRecording := isRec, mediaBlob := blob, audioURL := url, transcript := tr,
        confirmationMessage := msg, mediaRecorderRef := some rs.length, audioChunks := chunks,
        requests := reqs, liveStreams := streams,
        recorders := rs ++ [{ stream := stream, state := .recording, stopQueued := false }] }
      = true := by
    unfold stopGuard current
    simp only [hget]
    rfl
  have hs3 : stopRecording
      { isRecording := isRec, mediaBlob := blob, audioURL := url, transcript := tr,
        confirmationMessage := msg, mediaRecorderRef := some rs.length, audioChunks := chunks,
        requests := reqs, liveStreams := streams,
        recorders := rs ++ [{ stream := stream, state := .recording, stopQueued := false }] }
      = { isRecording := false, mediaBlob := blob, audioURL := url, transcript := tr,
          confirmationMessage := "Processing audio...", mediaRecorderRef := some rs.length,
          audioChunks := chunks, requests := reqs, liveStreams := streams,
          recorders := rs ++ [{ stream := stream, state := .inactive, stopQueued := true }] } := by
    rw [stopRecording_of_guard _ hg]
    simp only [stopAt_concat_recording]
  have hget2 : (rs ++ [(⟨stream, .inactive, true⟩ : MediaRecorder)])[rs.length]?
      = some ⟨stream, .inactive, true⟩ := List.getElem?_concat_length _ _
  have hq : queuedBy
      { isRecording := isRec, mediaBlob := blob, audioURL := url, transcript := tr,
        confirmationMessage := msg, mediaRecorderRef := some rs.length, audioChunks := chunks,
        requests := reqs, liveStreams := streams,
        recorders := rs ++ [{ stream := stream, state := .recording, stopQueued := false }] }
      { isRecording := false, mediaBlob := blob, audioURL := url, transcript := tr,
        confirmationMessage := "Processing audio...", mediaRecorderRef := some rs.length,
        audioChunks := chunks, requests := reqs, liveStreams := streams,
        recorders := rs ++ [{ stream := stream, state := .inactive, stopQueued := true }] }
      = some rs.length := by
    unfold queuedBy stopQueuedAt
    simp only [hget, hget2]
    rfl
  unfold endCapture
  rw [hs3, hq]
  show run (finalization rs.length flush uuid o) _ = _
  unfold finalization
  rw [run_append, run_dataavailable]
  show fireStop rs.length uuid o _ = _
  rw [fireStop_of_queued rs.length uuid o _
    { stream := stream, state := .inactive, stopQueued := true } hget2 rfl]
  simp only [set_concat_length]

theorem Capture.run_eq (c : Capture) (s : State) :
    c.run s
      = onstop c.uuid c.upload
          { s with
            liveStreams := s.liveStreams ++ [c.stream],
            recorders := s.recorders
              ++ [{ stream := c.stream, state := .inactive, stopQueued := false }],
            mediaRecorderRef := some s.recorders.length,
            audioChunks := [] ++ c.chunks.filter (fun d => decide (d.size > 0))
              ++ c.flush.filter (fun d => decide (d.size > 0)),
            isRecording := false,
            confirmationMessage := "Processing audio..." } := by
  unfold Capture.run
  rw [run_dataavailable]
  rw [endCapture_fresh c.flush c.uuid c.upload _ s.recorders c.stream rfl rfl]
  rfl

theorem Capture.run_requests (c : Capture) (s : State) :
    (c.run s).requests
      = s.requests ++ [Request.processCommand
          { bytes := ((c.chunks ++ c.flush).map Blob.bytes).flatten, type := "audio/webm" }
          "audio.webm"] := by
  rw [Capture.run_eq]
  have hblob : Blob.new ([] ++ c.chunks.filter (fun d => decide (d.size > 0))
        ++ c.flush.filter (fun d => decide (d.size > 0))) "audio/webm"
      = { bytes := ((c.chunks ++ c.flush).map Blob.bytes).flatten, type := "audio/webm" } := by
    simp only [Blob.new, List.nil_append, List.map_append, List.flatten_append,
      flatten_filter_size]
  rw [← hblob]
  cases c.upload <;> rfl

end App
namespace App

/-- C3: for every sequence of captures with device access granted, run from any
session, each capture adds exactly one request, an upload to
`/process-command`, and its audio is the concatenation, in arrival order, of
the data delivered since that capture's start, of type `audio/webm`; nothing of
an earlier capture or of the accumulator's prior content is in it.  A capture
that delivered nothing still uploads, an audio of zero bytes. -/
theorem runCaptures_uploads (cs : List Capture) (s : State) :
    (runCaptures cs s).requests
      = s.requests ++ cs.map (fun c => Request.processCommand
          { bytes := ((c.chunks ++ c.flush).map Blob.bytes).flatten, type := "audio/webm" }
          "audio.webm") ∧
    (∀ r ∈ cs.map (fun c => Request.processCommand
          { bytes := ((c.chunks ++ c.flush).map Blob.bytes).flatten, type := "audio/webm" }
          "audio.webm"), r.url = "http://localhost:3001/process-command") ∧
    (∀ stream uuid o,
      (Capture.run { stream := stream, chunks := [], flush := [], uuid := uuid, upload := o }
          s).requests
        = s.requests ++ [Request.processCommand { bytes := [], type := "audio/webm" }
            "audio.webm"]) ∧
    Blob.size { bytes := [], type := "audio/webm" } = 0 := by
  refine ⟨?_, ?_, ?_, rfl⟩
  · induction cs generalizing s with
    | nil => simp [runCaptures]
    | cons c cs ih =>
      have hstep : runCaptures (c :: cs) s = runCaptures cs (c.run s) := rfl
      rw [hstep, ih, Capture.run_requests]
      simp
  · intro r hr
    obtain ⟨c, _, rfl⟩ := List.mem_map.mp hr
    rfl
  · intro stream uuid o
    rw [Capture.run_requests]
    rfl

/-- C3, at two captures in a row, the second with no data: two uploads, the
first of the four bytes delivered, the second of zero bytes. -/
theorem runCaptures_uploads_witness :
    (runCaptures [exampleCapture, emptyCapture] exampleState).requests
      = [Request.processCommand { bytes := [26, 69, 223, 163], type := "audio/webm" }
           "audio.webm",
         Request.processCommand { bytes := [], type := "audio/webm" } "audio.webm"] :=
  (runCaptures_uploads [exampleCapture, emptyCapture] exampleState).1

end App

namespace App

/-! ## The guard of `stopRecording` -/

theorem sendToBackend_frame (b : Blob) (o : HttpOutcome) (s : State) :
    (sendToBackend (some b) o s).isRecording = s.isRecording ∧
    (sendToBackend (some b) o s).mediaRecorderRef = s.mediaRecorderRef ∧
    (sendToBackend (some b) o s).liveStreams = s.liveStreams ∧
    (sendToBackend (some b) o s).mediaBlob = s.mediaBlob ∧
    (sendToBackend (some b) o s).audioURL = s.audioURL ∧
    (sendToBackend (some b) o s).recorders = s.recorders := by
  cases o <;> exact ⟨rfl, rfl, rfl, rfl, rfl, rfl⟩

theorem onstop_frame (uuid : String) (o : HttpOutcome) (s : State) :
    (onstop uuid o s).isRecording = s.isRecording ∧
    (onstop uuid o s).mediaRecorderRef = s.mediaRecorderRef ∧
    (onstop uuid o s).liveStreams = s.liveStreams ∧
    (onstop uuid o s).recorders = s.recorders := by
  cases o <;> exact ⟨rfl, rfl, rfl, rfl⟩

theorem confirmCommand_frame (o : HttpOutcome) (s : State) :
    (confirmCommand o s).isRecording = s.isRecording ∧
    (confirmCommand o s).mediaRecorderRef = s.mediaRecorderRef ∧
    (confirmCommand o s).liveStreams = s.liveStreams ∧
    (confirmCommand o s).recorders = s.recorders := by
  by_cases h : JS.trim s.transcript = ""
  · rw [confirmCommand_of_blank s o h]
    exact ⟨rfl, rfl, rfl, rfl⟩
  · cases o with
    | ok data => rw [confirmCommand_ok s data h]; exact ⟨rfl, rfl, rfl, rfl⟩
    | error => rw [confirmCommand_error s h]; exact ⟨rfl, rfl, rfl, rfl⟩

theorem ondataavailable_frame (d : Blob) (s : State) :
    (ondataavailable d s).isRecording = s.isRecording ∧
    (ondataavailable d s).mediaRecorderRef = s.mediaRecorderRef ∧
    (ondataavailable d s).liveStreams = s.liveStreams ∧
    (ondataavailable d s).recorders = s.recorders := by
  unfold ondataavailable
  split <;> exact ⟨rfl, rfl, rfl, rfl⟩

theorem stopGuard_eq (s : State) :
    stopGuard s = (match s.mediaRecorderRef with
                   | some i => (match s.recorders[i]? with
                                | some r => r.state == .recording
                                | none => false)
                   | none => false) := by
  unfold stopGuard current
  cases s.mediaRecorderRef <;> rfl

theorem stopGuard_congr (s t : State) (h : t.mediaRecorderRef = s.mediaRecorderRef)
    (hr : t.recorders = s.recorders) : stopGuard t = stopGuard s := by
  rw [stopGuard_eq, stopGuard_eq, h, hr]

theorem stop_state (r : MediaRecorder) : r.stop.state = .inactive := by
  unfold MediaRecorder.stop
  by_cases h : r.state = .inactive
  · rw [if_pos h]
    exact h
  · rw [if_neg h]

/-- After `stop()` on the recorder at position `j`, a recorder that is recording
was recording before, and is not the one at `j`. -/
theorem stopAt_recording (j i : Nat) (rs : List MediaRecorder) (r : MediaRecorder)
    (h : (stopAt j rs)[i]? = some r) (hrec : r.state = .recording) :
    rs[i]? = some r ∧ i ≠ j := by
  unfold stopAt at h
  cases hj : rs[j]? with
  | none =>
    rw [hj] at h
    refine ⟨h, ?_⟩
    intro hij
    rw [hij, hj] at h
    cases h
  | some q =>
    rw [hj] at h
    simp only at h
    by_cases hij : j = i
    · subst hij
      have hlt : j < rs.length := by
        by_contra hge
        rw [List.getElem?_eq_none (Nat.le_of_not_lt hge)] at hj
        cases hj
      rw [List.getElem?_set_self hlt] at h
      have hq : q.stop = r := Option.some.inj h
      have := stop_state q
      rw [hq, hrec] at this
      cases this
    · rw [List.getElem?_set_ne hij] at h
      exact ⟨h, fun e => hij e.symm⟩

theorem stopGuard_stopAt (j : Nat) (s : State)
    (h : stopGuard { s with recorders := stopAt j s.recorders } = true) :
    stopGuard s = true ∧ s.mediaRecorderRef ≠ some j := by
  rw [stopGuard_eq] at h
  rw [stopGuard_eq]
  cases href : s.mediaRecorderRef with
  | none =>
    have h' : (match s.mediaRecorderRef with
               | some i => (match (stopAt j s.recorders)[i]? with
                            | some r => r.state == .recording
                            | none => false)
               | none => false) = true := h
    rw [href] at h'
    cases h'
  | some i =>
    have h' : (match s.mediaRecorderRef with
               | some i => (match (stopAt j s.recorders)[i]? with
                            | some r => r.state == .recording
                            | none => false)
               | none => false) = true := h
    rw [href] at h'
    simp only at h'
    cases hr : (stopAt j s.recorders)[i]? with
    | none =>
      rw [hr] at h'
      cases h'
    | some r =>
      rw [hr] at h'
      have hrec : r.state = .recording := by simpa using h'
      have hs := stopAt_recording j i s.recorders r hr hrec
      refine ⟨?_, ?_⟩
      · simp only [hs.1]
        simpa using hrec
      · intro e
        exact hs.2 (Option.some.inj e)

theorem stopGuard_stopRecording (s : State) (h : stopGuard s = true) :
    stopGuard (stopRecording s) = false ∧ (stopRecording s).isRecording = false := by
  rw [stopRecording_of_guard s h]
  refine ⟨?_, rfl⟩
  cases href : s.mediaRecorderRef with
  | none =>
    rw [stopGuard_eq, href] at h
    cases h
  | some i =>
    by_contra hne
    have ht : stopGuard { s with recorders := stopAt i s.recorders } = true := by
      rw [stopGuard_eq]
      rw [stopGuard_eq] at hne
      simpa [href] using hne
    exact (stopGuard_stopAt i s ht).2 href

theorem fireStop_frame (i : Nat) (uuid : String) (o : HttpOutcome) (s : State) :
    (fireStop i uuid o s).isRecording = s.isRecording ∧
    (fireStop i uuid o s).mediaRecorderRef = s.mediaRecorderRef ∧
    (fireStop i uuid o s).liveStreams = s.liveStreams ∧
    (stopGuard (fireStop i uuid o s) = stopGuard s) := by
  unfold fireStop
  cases hr : s.recorders[i]? with
  | none => exact ⟨rfl, rfl, rfl, rfl⟩
  | some r =>
    simp only
    by_cases hq : r.stopQueued = true
    · rw [if_pos hq]
      have hf := onstop_frame uuid o
        { s with recorders := s.recorders.set i { r with stopQueued := false } }
      refine ⟨hf.1, hf.2.1, hf.2.2.1, ?_⟩
      rw [stopGuard_eq, stopGuard_eq, hf.2.1, hf.2.2.2]
      show (match s.mediaRecorderRef with
            | some k => (match (s.recorders.set i { r with stopQueued := false })[k]? with
                         | some q => q.state == RecordingState.recording
                         | none => false)
            | none => false) = _
      cases s.mediaRecorderRef with
      | none => rfl
      | some k =>
        simp only
        by_cases hik : i = k
        · subst hik
          have hlt : i < s.recorders.length := by
            by_contra hge
            rw [List.getElem?_eq_none (Nat.le_of_not_lt hge)] at hr
            cases hr
          rw [List.getElem?_set_self hlt, hr]
        · rw [List.getElem?_set_ne hik]
    · rw [if_neg hq]
      exact ⟨rfl, rfl, rfl, rfl⟩

theorem step_guard_implies (s : State) (e : Event)
    (h : stopGuard s = true → s.isRecording = true) :
    stopGuard (step s e) = true → (step s e).isRecording = true := by
  cases e with
  | startRecording o =>
    cases o with
    | granted stream => exact fun _ => rfl
    | denied => exact h
  | dataavailable data =>
    have hf := ondataavailable_frame data s
    show stopGuard (ondataavailable data s) = true → (ondataavailable data s).isRecording = true
    rw [stopGuard_congr s _ hf.2.1 hf.2.2.2, hf.1]
    exact h
  | stopRecording =>
    show stopGuard (stopRecording s) = true → (stopRecording s).isRecording = true
    cases hg : stopGuard s with
    | true =>
      intro h2
      rw [(stopGuard_stopRecording s hg).1] at h2
      cases h2
    | false =>
      rw [stopRecording_of_not_guard s hg, hg]
      intro h2
      cases h2
  | inactivate i =>
    intro h2
    exact h (stopGuard_stopAt i s h2).1
  | stop i uuid o =>
    have hf := fireStop_frame i uuid o s
    show stopGuard (fireStop i uuid o s) = true → (fireStop i uuid o s).isRecording = true
    rw [hf.2.2.2, hf.1]
    exact h
  | handleTranscriptChange value => exact h
  | confirmCommand o =>
    have hf := confirmCommand_frame o s
    show stopGuard (confirmCommand o s) = true → (confirmCommand o s).isRecording = true
    rw [stopGuard_congr s _ hf.2.1 hf.2.2.2, hf.1]
    exact h

theorem run_guard_implies (es : List Event) (s : State)
    (h : stopGuard s = true → s.isRecording = true) :
    stopGuard (run es s) = true → (run es s).isRecording = true := by
  induction es generalizing s with
  | nil => exact h
  | cons e es ih => exact ih (step s e) (step_guard_implies s e h)

theorem queuedBy_self (s : State) : queuedBy s s = none := by
  unfold queuedBy
  cases s.mediaRecorderRef with
  | none => rfl
  | some i =>
    simp only
    cases stopQueuedAt s i <;> rfl

theorem endCapture_of_not_guard (flush : List Blob) (uuid : String) (o : HttpOutcome)
    (s : State) (h : stopGuard s = false) : endCapture flush uuid o s = s := by
  unfold endCapture
  rw [stopRecording_of_not_guard s h, queuedBy_self]

/-- C8 (as stated, refuted): after a granted start, once the recorder has become
inactive by itself, `isRecording` is still true while the guard of
`stopRecording` is false; the same holds after that recorder's `stop` event has
fired. -/
theorem guard_agrees_counterexample :
    (run [.startRecording (.granted 5), .inactivate 0] init).isRecording = true ∧
    stopGuard (run [.startRecording (.granted 5), .inactivate 0] init) = false ∧
    (run endedEvents init).isRecording = true ∧
    stopGuard (run endedEvents init) = false := by
  decide

/-- C8 (amended): in every session reached from the initial one by handlers and
recorder events, the guard of `stopRecording` (a recorder is referenced and its
state is `'recording'`) is true only when `isRecording` is; so where
`isRecording` is false the guard is false, `stopRecording` changes no cell (the
status is not rewritten), and `endCapture` runs no finalization: the session
and the request log stay as they were. -/
theorem stopRecording_idle_noop (es : List Event) :
    (stopGuard (run es init) = true → (run es init).isRecording = true) ∧
    ((run es init).isRecording = false →
      stopGuard (run es init) = false ∧
      stopRecording (run es init) = run es init ∧
      ∀ flush uuid o,
        endCapture flush uuid o (run es init) = run es init ∧
        (endCapture flush uuid o (run es init)).requests = (run es init).requests) := by
  have hinv : stopGuard (run es init) = true → (run es init).isRecording = true :=
    run_guard_implies es init (fun h => by cases h)
  refine ⟨hinv, ?_⟩
  intro hrec
  have hg : stopGuard (run es init) = false := by
    cases hc : stopGuard (run es init) with
    | false => rfl
    | true =>
      rw [hinv hc] at hrec
      cases hrec
  refine ⟨hg, stopRecording_of_not_guard _ hg, ?_⟩
  intro flush uuid o
  rw [endCapture_of_not_guard flush uuid o _ hg]
  exact ⟨rfl, rfl⟩

/-- C8, after a capture that has already been stopped and finalized, and before
any capture. -/
theorem stopRecording_idle_noop_witness :
    ((run exampleEvents init).isRecording = false ∧
      stopRecording (run exampleEvents init) = run exampleEvents init) ∧
    ((run [] init).isRecording = false ∧ stopRecording (run [] init) = run [] init) :=
  ⟨⟨by decide, ((stopRecording_idle_noop exampleEvents).2 (by decide)).2.1⟩,
   ⟨by decide, ((stopRecording_idle_noop []).2 (by decide)).2.1⟩⟩

end App
namespace App

/-! ## The device stream -/

theorem step_liveStreams (s : State) (e : Event) :
    ∃ added, (step s e).liveStreams = s.liveStreams ++ added := by
  cases e with
  | startRecording o =>
    cases o with
    | granted stream => exact ⟨[stream], rfl⟩
    | denied => exact ⟨[], (List.append_nil _).symm⟩
  | dataavailable data =>
    exact ⟨[], by rw [List.append_nil]; exact (ondataavailable_frame data s).2.2.1⟩
  | stopRecording =>
    refine ⟨[], ?_⟩
    rw [List.append_nil]
    show (stopRecording s).liveStreams = s.liveStreams
    unfold stopRecording
    split <;> rfl
  | inactivate i => exact ⟨[], (List.append_nil _).symm⟩
  | stop i uuid o =>
    exact ⟨[], by rw [List.append_nil]; exact (fireStop_frame i uuid o s).2.2.1⟩
  | handleTranscriptChange value => exact ⟨[], (List.append_nil _).symm⟩
  | confirmCommand o =>
    exact ⟨[], by rw [List.append_nil]; exact (confirmCommand_frame o s).2.2.1⟩

/-- C9 (as stated, refuted): after a granted start, a stop and its finalization
the stream obtained at the start is still held, also when the stop comes at
once. -/
theorem stream_released_counterexample :
    exampleCapture.stream ∈ (exampleCapture.run init).liveStreams ∧
    emptyCapture.stream ∈ (emptyCapture.run init).liveStreams ∧
    current (emptyCapture.run init)
      = some { stream := emptyCapture.stream, state := .inactive, stopQueued := false } := by
  decide

/-- C9 (amended): the stream obtained by a granted `startRecording` is not
released when the capture ends.  After the stop and its finalization the
recorder is inactive and `isRecording` is false, but the stream is still held;
and no handler and no recorder event releases a stream: each keeps the held
streams and at most adds one. -/
theorem capture_keeps_stream (c : Capture) (s : State) (e : Event) :
    c.stream ∈ (c.run s).liveStreams ∧
    (c.run s).liveStreams = s.liveStreams ++ [c.stream] ∧
    current (c.run s)
      = some { stream := c.stream, state := .inactive, stopQueued := false } ∧
    (c.run s).isRecording = false ∧
    (∃ added, (step s e).liveStreams = s.liveStreams ++ added) := by
  have hf := onstop_frame c.uuid c.upload
    { s with
      liveStreams := s.liveStreams ++ [c.stream],
      recorders := s.recorders
        ++ [{ stream := c.stream, state := .inactive, stopQueued := false }],
      mediaRecorderRef := some s.recorders.length,
      audioChunks := [] ++ c.chunks.filter (fun d => decide (d.size > 0))
        ++ c.flush.filter (fun d => decide (d.size > 0)),
      isRecording := false,
      confirmationMessage := "Processing audio..." }
  rw [← Capture.run_eq c s] at hf
  have hl : (c.run s).liveStreams = s.liveStreams ++ [c.stream] := hf.2.2.1
  refine ⟨?_, hl, ?_, hf.1, step_liveStreams s e⟩
  · rw [hl]
    simp
  · unfold current
    rw [hf.2.1, hf.2.2.2]
    exact List.getElem?_concat_length _ _

end App
namespace App

/-! ## What clears the transcript and releases the audio -/

theorem orElse_empty (x : Option String) (h : JS.orElse x "" = "") :
    x = none ∨ x = some "" := by
  cases x with
  | none => exact Or.inl rfl
  | some v =>
    right
    unfold JS.orElse at h
    by_cases hv : v = ""
    · rw [hv]
    · simp [hv] at h

theorem stopRecording_fields (s : State) :
    (stopRecording s).mediaBlob = s.mediaBlob ∧
    (stopRecording s).audioURL = s.audioURL ∧
    (stopRecording s).transcript = s.transcript := by
  unfold stopRecording
  split <;> exact ⟨rfl, rfl, rfl⟩

theorem onstop_fields (uuid : String) (o : HttpOutcome) (s : State) :
    (onstop uuid o s).mediaBlob = some (Blob.new s.audioChunks "audio/webm") ∧
    (onstop uuid o s).audioURL = createObjectURL uuid ∧
    (onstop uuid o s).transcript
      = (match o with
         | .ok data => JS.orElse data.transcript ""
         | .error => s.transcript) := by
  cases o <;> exact ⟨rfl, rfl, rfl⟩

theorem fireStop_cases (i : Nat) (uuid : String) (o : HttpOutcome) (t : State) :
    fireStop i uuid o t = t ∨
    ((fireStop i uuid o t).mediaBlob = some (Blob.new t.audioChunks "audio/webm") ∧
      (fireStop i uuid o t).audioURL = createObjectURL uuid ∧
      (fireStop i uuid o t).transcript
        = (match o with
           | .ok data => JS.orElse data.transcript ""
           | .error => t.transcript)) := by
  unfold fireStop
  cases hr : t.recorders[i]? with
  | none => exact Or.inl rfl
  | some r =>
    simp only
    by_cases hq : r.stopQueued = true
    · rw [if_pos hq]
      exact Or.inr (onstop_fields uuid o _)
    · rw [if_neg hq]
      exact Or.inl rfl

/-- What `endCapture` does to the captured audio, the playback reference and
the transcript: it keeps all three, or it passed the guard and its finalization
stored a fresh audio and reference and the outcome of the upload. -/
theorem endCapture_cases (flush : List Blob) (uuid : String) (o : HttpOutcome) (s : State) :
    ((endCapture flush uuid o s).mediaBlob = s.mediaBlob ∧
      (endCapture flush uuid o s).audioURL = s.audioURL ∧
      (endCapture flush uuid o s).transcript = s.transcript) ∨
    (stopGuard s = true ∧
      (∃ b, (endCapture flush uuid o s).mediaBlob = some b) ∧
      (endCapture flush uuid o s).audioURL = createObjectURL uuid ∧
      (endCapture flush uuid o s).transcript
        = (match o with
           | .ok data => JS.orElse data.transcript ""
           | .error => s.transcript)) := by
  have hfr := stopRecording_fields s
  cases hq : queuedBy s (stopRecording s) with
  | none =>
    have he : endCapture flush uuid o s = stopRecording s := by
      unfold endCapture
      rw [hq]
    rw [he]
    exact Or.inl hfr
  | some i =>
    have hg : stopGuard s = true := by
      cases hc : stopGuard s with
      | true => rfl
      | false =>
        rw [stopRecording_of_not_guard s hc, queuedBy_self] at hq
        cases hq
    have he : endCapture flush uuid o s
        = fireStop i uuid o
            { stopRecording s with
              audioChunks := (stopRecording s).audioChunks
                ++ flush.filter (fun d => decide (d.size > 0)) } := by
      unfold endCapture
      rw [hq]
      show run (finalization i flush uuid o) (stopRecording s) = _
      unfold finalization
      rw [run_append, run_dataavailable]
      rfl
    rw [he]
    rcases fireStop_cases i uuid o
      { stopRecording s with
        audioChunks := (stopRecording s).audioChunks
          ++ flush.filter (fun d => decide (d.size > 0)) } with h | h
    · rw [h]
      exact Or.inl hfr
    · refine Or.inr ⟨hg, ⟨_, h.1⟩, h.2.1, ?_⟩
      rw [h.2.2]
      cases o with
      | ok data => rfl
      | error => exact hfr.2.2

/-- C10 (as stated, refuted): an edit to the empty string, and a successful
transcription whose response has no transcript, each take the transcript from
non-empty to empty, and neither is a confirmation. -/
theorem clearing_counterexample :
    exampleState.transcript ≠ "" ∧
    ((Op.editTranscript "").run exampleState).transcript = "" ∧
    (∀ data, Op.editTranscript "" ≠ Op.confirmCommand (.ok data)) ∧
    ((Op.submitForTranscription (some { bytes := [26], type := "audio/webm" })
        (.ok emptyResponse)).run exampleState).transcript = "" ∧
    (∀ data, Op.submitForTranscription (some { bytes := [26], type := "audio/webm" })
        (.ok emptyResponse) ≠ Op.confirmCommand (.ok data)) :=
  ⟨by decide, by decide, fun _ h => Op.noConfusion h, by decide, fun _ h => Op.noConfusion h⟩

/-- C10 (amended): for every session and every operation with every outcome, if
the operation takes `mediaBlob` from present to null or `audioURL` from
non-empty to empty, it is a `confirmCommand` whose request succeeded; if it
takes the transcript from non-empty to empty, it is such a `confirmCommand`, or
an edit to the empty string, or a successful transcription (submitted directly,
or by the finalization of an `endCapture` that passed its guard) whose response
has no transcript or an empty one. -/
theorem clearing_only_by (s : State) (op : Op) :
    ((s.mediaBlob ≠ none ∧ (op.run s).mediaBlob = none) ∨
      (s.audioURL ≠ "" ∧ (op.run s).audioURL = "") →
        ∃ data, op = Op.confirmCommand (.ok data) ∧ JS.trim s.transcript ≠ "") ∧
    (s.transcript ≠ "" ∧ (op.run s).transcript = "" →
      (∃ data, op = Op.confirmCommand (.ok data) ∧ JS.trim s.transcript ≠ "") ∨
      op = Op.editTranscript "" ∨
      (∃ audio data, op = Op.submitForTranscription (some audio) (.ok data) ∧
        (data.transcript = none ∨ data.transcript = some "")) ∨
      (∃ flush uuid data, op = Op.endCapture flush uuid (.ok data) ∧ stopGuard s = true ∧
        (data.transcript = none ∨ data.transcript = some ""))) := by
  cases op with
  | beginCapture o =>
    have hf : (startRecording o s).mediaBlob = s.mediaBlob ∧
        (startRecording o s).audioURL = s.audioURL ∧
        (startRecording o s).transcript = s.transcript := by
      cases o <;> exact ⟨rfl, rfl, rfl⟩
    refine ⟨?_, ?_⟩
    · rintro (⟨h1, h2⟩ | ⟨h1, h2⟩)
      · exact absurd (hf.1 ▸ h2) h1
      · exact absurd (hf.2.1 ▸ h2) h1
    · rintro ⟨h1, h2⟩
      exact absurd (hf.2.2 ▸ h2) h1
  | endCapture flush uuid o =>
    show (_ ∨ (_ ∧ (endCapture flush uuid o s).audioURL = "") → _) ∧
      (_ ∧ (endCapture flush uuid o s).transcript = "" → _)
    rcases endCapture_cases flush uuid o s with h | h
    · refine ⟨?_, ?_⟩
      · rintro (⟨h1, h2⟩ | ⟨h1, h2⟩)
        · have h3 : (endCapture flush uuid o s).mediaBlob = none := h2
          rw [h.1] at h3
          exact absurd h3 h1
        · rw [h.2.1] at h2
          exact absurd h2 h1
      · rintro ⟨h1, h2⟩
        rw [h.2.2] at h2
        exact absurd h2 h1
    · refine ⟨?_, ?_⟩
      · rintro (⟨_, h2⟩ | ⟨_, h2⟩)
        · have h3 : (endCapture flush uuid o s).mediaBlob = none := h2
          obtain ⟨b, hb⟩ := h.2.1
          rw [hb] at h3
          cases h3
        · rw [h.2.2.1] at h2
          exact absurd h2 (JS.createObjectURL_ne uuid)
      · rintro ⟨h1, h2⟩
        rw [h.2.2.2] at h2
        cases o with
        | ok data =>
          exact Or.inr (Or.inr (Or.inr ⟨flush, uuid, data, rfl, h.1, orElse_empty _ h2⟩))
        | error => exact absurd h2 h1
  | submitForTranscription audio o =>
    cases audio with
    | none =>
      refine ⟨?_, ?_⟩
      · rintro (⟨h1, h2⟩ | ⟨h1, h2⟩)
        · exact absurd h2 h1
        · exact absurd h2 h1
      · rintro ⟨h1, h2⟩
        exact absurd h2 h1
    | some b =>
      have hf := sendToBackend_frame b o s
      refine ⟨?_, ?_⟩
      · rintro (⟨h1, h2⟩ | ⟨h1, h2⟩)
        · exact absurd (hf.2.2.2.1 ▸ h2) h1
        · exact absurd (hf.2.2.2.2.1 ▸ h2) h1
      · rintro ⟨h1, h2⟩
        cases o with
        | ok data => exact Or.inr (Or.inr (Or.inl ⟨b, data, rfl, orElse_empty _ h2⟩))
        | error => exact absurd h2 h1
  | editTranscript newText =>
    refine ⟨?_, ?_⟩
    · rintro (⟨h1, h2⟩ | ⟨h1, h2⟩)
      · exact absurd h2 h1
      · exact absurd h2 h1
    · rintro ⟨_, h2⟩
      have hn : newText = "" := h2
      rw [hn]
      exact Or.inr (Or.inl rfl)
  | confirmCommand o =>
    by_cases hb : JS.trim s.transcript = ""
    · have he : Op.run s (Op.confirmCommand o) = _ := confirmCommand_of_blank s o hb
      rw [he]
      refine ⟨?_, ?_⟩
      · rintro (⟨h1, h2⟩ | ⟨h1, h2⟩)
        · exact absurd h2 h1
        · exact absurd h2 h1
      · rintro ⟨h1, h2⟩
        exact absurd h2 h1
    · cases o with
      | ok data =>
        exact ⟨fun _ => ⟨data, rfl, hb⟩, fun _ => Or.inl ⟨data, rfl, hb⟩⟩
      | error =>
        have he : Op.run s (Op.confirmCommand .error) = _ := confirmCommand_error s hb
        rw [he]
        refine ⟨?_, ?_⟩
        · rintro (⟨h1, h2⟩ | ⟨h1, h2⟩)
          · exact absurd h2 h1
          · exact absurd h2 h1
        · rintro ⟨h1, h2⟩
          exact absurd h2 h1

/-- C10, at the example session: a successful confirmation releases the captured
audio, and the theorem names it. -/
theorem clearing_only_by_witness :
    exampleState.mediaBlob ≠ none ∧
    ((Op.confirmCommand (.ok savedResponse)).run exampleState).mediaBlob = none ∧
    ∃ data, Op.confirmCommand (.ok savedResponse) = Op.confirmCommand (.ok data) ∧
      JS.trim exampleState.transcript ≠ "" :=
  ⟨by decide, by decide,
   (clearing_only_by exampleState (Op.confirmCommand (.ok savedResponse))).1
     (Or.inl ⟨by decide, by decide⟩)⟩

end App
